import Mathlib

/-!
Shallow embedding of the XLE shader-service pipeline headers
(`src/RenderCore/ShaderService.h`, `src/Assets/InvalidAssetManager.h`).
The repository ships only the class declarations for these components;
their translation units are not present, so the operational behaviour is
modelled from the specification's words, definition by definition, and
each such definition says so in its doc comment.
-/

namespace XLE

/-- `::Assets::AssetState` — the three compile states used throughout the
pipeline (spec §3: CompileState = {Pending, Ready, Invalid}). -/
inductive AssetState where
  | pending
  | ready
  | invalid
deriving DecidableEq, Repr

/-! ## Invalid Asset Registry (`Assets::InvalidAssetManager`) -/

/-- `InvalidAssetManager::AssetRef` from `InvalidAssetManager.h`:
a record `(name, errorString)`. -/
structure AssetRef where
  name : String
  errorString : String
deriving DecidableEq, Repr

/-- Modelled from the spec: the observable state of an
`InvalidAssetManager`. The header hides the state behind a Pimpl; the spec
gives an `active` flag fixed at construction (§4.4 "Constructible
inactive"), the list of records in insertion order (§4.4 `GetAssets`
returns a snapshot in insertion order), and we count the change
notifications fired so far to state the notification claims. -/
structure InvalidAssetManager where
  active : Bool
  assets : List AssetRef
  eventCount : Nat
deriving DecidableEq, Repr

/-- `InvalidAssetManager::InvalidAssetManager(bool active)` — modelled from
the spec: a fresh registry holds no records and has fired no
notifications. -/
def InvalidAssetManager.init (active : Bool) : InvalidAssetManager :=
  { active := active, assets := [], eventCount := 0 }

/-- Does the registry hold a record named `n`? -/
def InvalidAssetManager.containsName (s : InvalidAssetManager) (n : String) : Bool :=
  s.assets.any (fun r => r.name = n)

/-- Rewrite the error text of the record named `n`, leaving every other
record unchanged. -/
def updateErrorText (n e : String) (r : AssetRef) : AssetRef :=
  if r.name = n then { r with errorString := e } else r

/-- Modelled from the spec: `MarkInvalid(name, errorText)` is an
"idempotent upsert; fires exactly one change notification per call, even
if text is unchanged" (§4.4); the record is "created on first failure for
a name, updated on repeat failure" (§3 lifecycle), keeping its position.
On an inactive registry "Mark* calls are no-ops" (§4.4). -/
def InvalidAssetManager.MarkInvalid (s : InvalidAssetManager)
    (name errorString : String) : InvalidAssetManager :=
  if s.active then
    { s with
      assets :=
        if s.containsName name then
          s.assets.map (updateErrorText name errorString)
        else
          s.assets ++ [⟨name, errorString⟩],
      eventCount := s.eventCount + 1 }
  else s

/-- Modelled from the spec: `MarkValid(name)` "removes entry if present;
no-op, no notification if absent" (§4.4); no-op on an inactive
registry. -/
def InvalidAssetManager.MarkValid (s : InvalidAssetManager)
    (name : String) : InvalidAssetManager :=
  if s.active then
    if s.containsName name then
      { s with
        assets := s.assets.filter (fun r => r.name ≠ name),
        eventCount := s.eventCount + 1 }
    else s
  else s

/-- `GetAssets()` — modelled from the spec: a copy-out snapshot of the
records in insertion order (§4.4). -/
def InvalidAssetManager.GetAssets (s : InvalidAssetManager) : List AssetRef :=
  s.assets

/-- `HasInvalidAssets()` — modelled from the spec: whether any record is
present (§4.4). -/
def InvalidAssetManager.HasInvalidAssets (s : InvalidAssetManager) : Bool :=
  !s.assets.isEmpty

/-- One call against the registry, for stating properties of call
sequences. -/
inductive IAMCall where
  | markInvalid (name errorString : String)
  | markValid (name : String)
deriving DecidableEq, Repr

/-- Apply one call to a registry state. -/
def InvalidAssetManager.applyCall (s : InvalidAssetManager) : IAMCall → InvalidAssetManager
  | .markInvalid n e => s.MarkInvalid n e
  | .markValid n => s.MarkValid n

/-- Run a sequence of calls left to right. -/
def InvalidAssetManager.run (s : InvalidAssetManager) (calls : List IAMCall) :
    InvalidAssetManager :=
  calls.foldl InvalidAssetManager.applyCall s

/-! ## Shader stages and initializer parsing (`RenderCore::ShaderService`) -/

/-- `RenderCore::ShaderStage::Enum` from `ShaderService.h` (without the
`Max` sentinel). -/
inductive ShaderStage where
  | vertex
  | pixel
  | geometry
  | hull
  | domain
  | compute
  | null
deriving DecidableEq, Repr

/-- `::Assets::ResChar` is `char`; initializer strings are embedded as
lists of characters. -/
abbrev ResChar := Char

/-- The parsed compile-request identity `ShaderService::ResId`
(`ShaderService.h` lines 42–57), before it is stored into the
fixed-capacity character arrays. -/
structure ResId where
  filename : List ResChar
  entryPoint : List ResChar
  shaderModel : List ResChar
deriving DecidableEq, Repr

/-- Split a character list at the LAST occurrence of `c`: returns
`some (before, after)` when `c` occurs, `none` otherwise. -/
def splitLast (c : Char) : List Char → Option (List Char × List Char)
  | [] => none
  | a :: rest =>
    match splitLast c rest with
    | some (p, q) => some (a :: p, q)
    | none => if a = c then some ([], rest) else none

/-- Modelled from the spec: the default entry point used when the
initializer omits the trailing fields (§6: "trailing fields optional with
documented defaults (entry point default, ...)"); the spec does not name
the default, so a representative constant is used. -/
def defaultEntryPoint : List ResChar := ['m', 'a', 'i', 'n']

/-- Modelled from the spec: the default shader-model token when the
initializer omits it — "model default is a stage-appropriate wildcard"
(§6); rendered here as the bare wildcard token. -/
def defaultShaderModel : List ResChar := ['*']

/-- Modelled from the spec: the protected constructor
`ShaderService::ResId(StringSection initializer)` — "parses
`path:entry:model` (colon-delimited, trailing fields optional with
defaults)" where the "parser splits on the last two colons to tolerate
drive-letter colons inside `<path>`" (§6). -/
def parseInitializer (s : List ResChar) : ResId :=
  match splitLast ':' s with
  | none => ⟨s, defaultEntryPoint, defaultShaderModel⟩
  | some (p1, lastField) =>
    match splitLast ':' p1 with
    | none => ⟨p1, lastField, defaultShaderModel⟩
    | some (p2, midField) => ⟨p2, midField, lastField⟩

/-- Serialize a `ResId` back to an initializer string,
`<path>:<entryPoint>:<shaderModel>` (§6 initializer string format). -/
def serializeResId (r : ResId) : List ResChar :=
  r.filename ++ ':' :: r.entryPoint ++ ':' :: r.shaderModel

/-- Modelled from the spec: `ResId::AsShaderStage()` — the stage is
"derived from the model token" (§3); the standard model tokens start with
the stage mnemonic (`vs`, `ps`, `gs`, `hs`, `ds`, `cs`) as in the header's
example `ps_5_0`; anything else maps to `Null`. -/
def ResId.AsShaderStage (r : ResId) : ShaderStage :=
  match r.shaderModel with
  | 'v' :: 's' :: _ => .vertex
  | 'p' :: 's' :: _ => .pixel
  | 'g' :: 's' :: _ => .geometry
  | 'h' :: 's' :: _ => .hull
  | 'd' :: 's' :: _ => .domain
  | 'c' :: 's' :: _ => .compute
  | _ => .null

/-- Modelled from the spec: `ILowLevelCompiler::AdaptShaderModel` resolves
"a wildcard model token to a concrete one for the current runtime" (§4.2);
per the header's doc, `ps_*` means "the best pixel-shader model available"
— modelled by replacing a trailing `*` with the concrete level `5_0`. A
token without a trailing wildcard is returned unchanged. -/
def adaptShaderModel (m : List ResChar) : List ResChar :=
  if m.getLast? = some '*' then
    m.dropLast ++ ['5', '_', '0']
  else m

/-- `ShaderService::MakeResId(initializer, compiler)` — modelled from the
spec: "pure parse + model-adaptation ...; performs no I/O" (§4.2). -/
def MakeResId (initializer : List ResChar) : ResId :=
  let r := parseInitializer initializer
  { r with shaderModel := adaptShaderModel r.shaderModel }

/-! ## Pending compile marker state machine (`ShaderService::IPendingMarker`) -/

/-- The two terminal outcomes a background compile can reach. -/
inductive TerminalState where
  | ready
  | invalid
deriving DecidableEq, Repr

/-- View a terminal outcome as an `AssetState`. -/
def TerminalState.toAssetState : TerminalState → AssetState
  | .ready => .ready
  | .invalid => .invalid

/-- The state-changing events in a marker's life — modelled from the spec
(§4.1): the background compile completing to a terminal outcome, and an
"explicit external invalidation, which resets it for recomputation" (§3
invariants). Queries (`TryResolve`, `StallWhilePending`, `GetAssetState`)
observe the state without changing it, so they do not appear as events. -/
inductive MarkerEvent where
  | complete (outcome : TerminalState)
  | externalInvalidate
deriving DecidableEq, Repr

/-- Modelled from the spec: the marker's transition function — "States:
Pending → {Ready, Invalid}, terminal barring external invalidation"
(§4.1); completion moves a Pending marker to its outcome and has no effect
on a marker that is already terminal; external invalidation resets to
Pending. -/
def markerStep (s : AssetState) : MarkerEvent → AssetState
  | .complete outcome => if s = .pending then outcome.toAssetState else s
  | .externalInvalidate => .pending

/-- Run a sequence of marker events left to right. -/
def markerRun (s : AssetState) (evs : List MarkerEvent) : AssetState :=
  evs.foldl markerStep s

/-- Is the state terminal (Ready or Invalid)? -/
def AssetState.isTerminal : AssetState → Bool
  | .pending => false
  | .ready => true
  | .invalid => true

/-! ## Compiled byte-code handle (`RenderCore::CompiledShaderByteCode`) -/

/-- The exceptions the handle's accessors can signal, from the header's
doc comment on `CompiledShaderByteCode` (lines 167–175):
`::Assets::Exceptions::PendingAsset` — per spec §7(d) a contract
violation, "strict accessor called while Pending" — and
`::Assets::Exceptions::InvalidAsset`, a data error. -/
inductive AccessError where
  | pendingAsset
  | invalidAsset
deriving DecidableEq, Repr

/-- Modelled from the spec: the observable state of a
`CompiledShaderByteCode` handle — whether the background compile has
completed, the terminal outcome it reaches when it does, the byte payload
delivered when Ready, and the handle's internal payload cache
(`_shader`). -/
structure CompiledShaderByteCode where
  completed : Bool
  outcome : TerminalState
  payload : List Nat
  cache : Option (List Nat)
deriving DecidableEq, Repr

/-- The state the handle observes right now: Pending until the background
compile completes, then the terminal outcome. -/
def CompiledShaderByteCode.currentState (h : CompiledShaderByteCode) : AssetState :=
  if h.completed then h.outcome.toAssetState else .pending

/-- Modelled from the spec: `GetByteCode()` is "valid only once Ready has
been observed; fails otherwise" (§4.3); per the header doc it throws
`PendingAsset` while the compile is incomplete and `InvalidAsset` on a
failed compile. -/
def CompiledShaderByteCode.GetByteCode (h : CompiledShaderByteCode) :
    Except AccessError (List Nat) :=
  match h.currentState with
  | .pending => .error .pendingAsset
  | .invalid => .error .invalidAsset
  | .ready => .ok h.payload

/-- Modelled from the spec: `TryGetByteCode(outPtr, outSize) -> state`
"never blocks; on first Ready observation, copies the marker's payload
into an internal cache" (§4.3) and reports the state as a return code
instead of raising. -/
def CompiledShaderByteCode.TryGetByteCode (h : CompiledShaderByteCode) :
    Except AccessError (AssetState × CompiledShaderByteCode) :=
  match h.currentState with
  | .ready => .ok (.ready, { h with cache := some h.payload })
  | s => .ok (s, h)

/-- Modelled from the spec: `GetAssetState()` returns the "cached-or-live
state" (§4.3) as a return code. -/
def CompiledShaderByteCode.GetAssetState (h : CompiledShaderByteCode) :
    Except AccessError AssetState :=
  .ok h.currentState

/-- Modelled from the spec: `StallWhilePending()` "blocks only while
Pending" (§4.1), then reports the terminal state as a return code; once
dispatched "a compile runs to completion" (§5), so the stall observes the
marker's terminal outcome. -/
def CompiledShaderByteCode.StallWhilePending (h : CompiledShaderByteCode) :
    Except AccessError (AssetState × CompiledShaderByteCode) :=
  .ok (h.outcome.toAssetState, { h with completed := true })

/-! ## Shader compile registry (`RenderCore::ShaderService`) -/

/-- Modelled from the spec: one registered back-end, "capability-tagged
... keyed on declared model support" (§9) — the model tokens it accepts at
selection time, and the adapted tokens it knows how to compile. -/
structure ShaderSource where
  supportedModels : List (List ResChar)
  knownModels : List (List ResChar)
deriving DecidableEq, Repr

/-- Does this back-end accept the (pre-adaptation) model token? -/
def ShaderSource.accepts (src : ShaderSource) (m : List ResChar) : Bool :=
  src.supportedModels.contains m

/-- Does this back-end know the (post-adaptation) model token? -/
def ShaderSource.knows (src : ShaderSource) (m : List ResChar) : Bool :=
  src.knownModels.contains m

/-- `RenderCore::ShaderService` — the registry; `_shaderSources` is its
ordered back-end list (`ShaderService.h` line 143). -/
structure ShaderService where
  shaderSources : List ShaderSource
deriving DecidableEq, Repr

/-- `ShaderService::AddShaderSource` — modelled from the spec: "appends to
an ordered back-end list" (§4.2). -/
def ShaderService.AddShaderSource (svc : ShaderService) (src : ShaderSource) :
    ShaderService :=
  { svc with shaderSources := svc.shaderSources ++ [src] }

/-- The result of `CompileFromFile`: either a marker that is already in
the Invalid state carrying descriptive error text, or a dispatched
(Pending) marker for the parsed request (§4.2). -/
inductive CompileMarker where
  | invalidMarker (errorText : List ResChar)
  | pendingMarker (resId : ResId)
deriving DecidableEq, Repr

/-- The unrecoverable fault the registry can raise: "unknown model token
after adaptation is a hard error" (§4.2). -/
inductive HardError where
  | unknownModelToken (m : List ResChar)
deriving DecidableEq, Repr

/-- Is the initializer malformed? Modelled from the spec: the spec leaves
"malformed" undefined beyond the format `<path>:<entryPoint>:<shaderModel>`
(§6); an initializer whose path component is empty names no file, the one
way the colon format itself can fail. -/
def malformedInitializer (s : List ResChar) : Bool :=
  (parseInitializer s).filename.isEmpty

/-- Modelled from the spec: `CompileFromFile(initializer, definesTable)`
"parses `path:entry:model` ..., selects first compiler accepting the
model, returns a dispatched Marker; returns an already-Invalid marker if
no compiler registered" (§4.2); "malformed initializer or unregistered
compiler → Invalid marker with descriptive text, never an unrecoverable
fault; unknown model token after adaptation is a hard error" (§4.2). -/
def ShaderService.CompileFromFile (svc : ShaderService) (init : List ResChar) :
    Except HardError CompileMarker :=
  let r := parseInitializer init
  if malformedInitializer init then
    .ok (.invalidMarker ("malformed shader initializer: ".data ++ init))
  else
    match svc.shaderSources.find? (fun src => src.accepts r.shaderModel) with
    | none =>
      .ok (.invalidMarker ("no shader compiler accepts model: ".data ++ r.shaderModel))
    | some src =>
      let adapted := adaptShaderModel r.shaderModel
      if src.knows adapted then
        .ok (.pendingMarker { r with shaderModel := adapted })
      else
        .error (.unknownModelToken adapted)

/-! ## Singleton access (`ShaderService::GetInstance` / `SetInstance`) -/

/-- The assertion failure `assert(s_instance)` raises when the singleton
pointer is null (`ShaderService.h` line 135). -/
inductive AssertionFailure where
  | assertFailed
deriving DecidableEq, Repr

/-- `ShaderService::GetInstance()`, inline in the header (line 135):
`assert(s_instance); return *s_instance;` — embedded over the value of the
static pointer `s_instance`: the assertion fires when it is null,
otherwise the pointed-to instance is returned. -/
def ShaderService.GetInstance (s_instance : Option ShaderService) :
    Except AssertionFailure ShaderService :=
  match s_instance with
  | some inst => .ok inst
  | none => .error .assertFailed

/-- `ShaderService::SetInstance(ShaderService*)` — modelled from the spec:
installs the given pointer as the singleton (`s_instance`); the body is
not under src/, but the name and the spec's "constructed once and passed
... by a bootstrap component" (§9) fix its meaning. -/
def ShaderService.SetInstance (p : Option ShaderService) : Option ShaderService :=
  p

/-- The value of `s_instance` before any `SetInstance` call: a static
pointer is zero-initialized, i.e. null. -/
def ShaderService.initialInstance : Option ShaderService :=
  none

/-! ## Fixed field capacities of the stored `ResId` (header lines 45–47) -/

/-- `MaxPath` — the path-buffer capacity used by `_filename[MaxPath]`;
its value is defined outside src/ (in `Core/Types.h`); 260 is the
conventional Windows `MAX_PATH`. -/
def MaxPath : Nat := 260

/-- Modelled from the spec: the public constructor
`ResId(filename, entryPoint, shaderModel)` stores each component into the
header's fixed-capacity arrays `_filename[MaxPath]`, `_entryPoint[64]`,
`_shaderModel[32]` (`ShaderService.h` lines 45–47) with a bounded copy
that truncates to the capacity, one slot being the null terminator. -/
def ResId.construct (filename entryPoint shaderModel : List ResChar) : ResId :=
  { filename := filename.take (MaxPath - 1)
    entryPoint := entryPoint.take 63
    shaderModel := shaderModel.take 31 }

/-! ## Lemmas about `splitLast` and the initializer parser -/

theorem splitLast_eq_none (c : Char) (s : List Char) (h : c ∉ s) :
    splitLast c s = none := by
  induction s with
  | nil => rfl
  | cons a rest ih =>
    simp only [List.mem_cons, not_or] at h
    have hac : ¬a = c := fun hc => h.1 hc.symm
    simp [splitLast, ih h.2, hac]

theorem splitLast_append (c : Char) (p q : List Char) (h : c ∉ q) :
    splitLast c (p ++ c :: q) = some (p, q) := by
  induction p with
  | nil => simp [splitLast, splitLast_eq_none c q h]
  | cons a p ih => simp [splitLast, ih]

theorem mem_of_splitLast_eq_none (c : Char) (s : List Char)
    (h : splitLast c s = none) : c ∉ s := by
  induction s with
  | nil => simp
  | cons a rest ih =>
    simp only [splitLast] at h
    cases hr : splitLast c rest with
    | some pq => rw [hr] at h; cases h
    | none =>
      rw [hr] at h
      by_cases hac : a = c
      · simp [hac] at h
      · simp only [List.mem_cons, not_or]
        exact ⟨fun hca => hac hca.symm, ih hr⟩

theorem splitLast_some (c : Char) (s p q : List Char)
    (h : splitLast c s = some (p, q)) : s = p ++ c :: q ∧ c ∉ q := by
  induction s generalizing p q with
  | nil => cases h
  | cons a rest ih =>
    simp only [splitLast] at h
    cases hr : splitLast c rest with
    | some pq =>
      rw [hr] at h
      obtain ⟨p', q'⟩ := pq
      simp only [Option.some.injEq, Prod.mk.injEq] at h
      obtain ⟨hp, hq⟩ := h
      obtain ⟨hs, hnq⟩ := ih p' q' hr
      subst hp hq
      rw [hs]
      exact ⟨rfl, hnq⟩
    | none =>
      rw [hr] at h
      by_cases hac : a = c
      · rw [if_pos hac] at h
        simp only [Option.some.injEq, Prod.mk.injEq] at h
        obtain ⟨hp, hq⟩ := h
        subst hq
        rw [← hp, hac]
        exact ⟨rfl, mem_of_splitLast_eq_none c rest hr⟩
      · rw [if_neg hac] at h
        cases h

/-- The entry point and shader model produced by the parser never contain
a colon, whatever the initializer was: they are either colon-delimited
fields or the colon-free defaults. -/
theorem parseInitializer_fields_colon_free (s : List ResChar) :
    ':' ∉ (parseInitializer s).entryPoint ∧ ':' ∉ (parseInitializer s).shaderModel := by
  cases h1 : splitLast ':' s with
  | none =>
    simp only [parseInitializer, h1]
    exact ⟨by decide, by decide⟩
  | some pq1 =>
    obtain ⟨p1, lastField⟩ := pq1
    have hlast := (splitLast_some ':' s p1 lastField h1).2
    cases h2 : splitLast ':' p1 with
    | none =>
      simp only [parseInitializer, h1, h2]
      exact ⟨hlast, by decide⟩
    | some pq2 =>
      obtain ⟨p2, midField⟩ := pq2
      simp only [parseInitializer, h1, h2]
      exact ⟨(splitLast_some ':' p1 p2 midField h2).2, hlast⟩

/-- Parsing a serialized `ResId` whose entry point and model are
colon-free recovers the fields exactly. -/
theorem parseInitializer_serializeResId (r : ResId)
    (he : ':' ∉ r.entryPoint) (hm : ':' ∉ r.shaderModel) :
    parseInitializer (serializeResId r) = r := by
  have hs : serializeResId r = (r.filename ++ ':' :: r.entryPoint) ++ ':' :: r.shaderModel := by
    simp [serializeResId]
  rw [hs]
  simp only [parseInitializer, splitLast_append ':' _ _ hm, splitLast_append ':' _ _ he]

theorem adaptShaderModel_colon_free (m : List ResChar) (h : ':' ∉ m) :
    ':' ∉ adaptShaderModel m := by
  unfold adaptShaderModel
  by_cases hl : m.getLast? = some '*'
  · simp only [if_pos hl, List.mem_append]
    rintro (hc | hc)
    · exact h (List.dropLast_sublist m |>.mem hc)
    · simp at hc
  · simpa [if_neg hl] using h

theorem adaptShaderModel_idem (m : List ResChar) :
    adaptShaderModel (adaptShaderModel m) = adaptShaderModel m := by
  unfold adaptShaderModel
  by_cases hl : m.getLast? = some '*'
  · simp [if_pos hl]
  · simp [if_neg hl, hl]

/-! ## Lemmas about the Invalid Asset Registry -/

theorem updateErrorText_name (n e : String) (r : AssetRef) :
    (updateErrorText n e r).name = r.name := by
  unfold updateErrorText
  by_cases h : r.name = n <;> simp [h]

theorem map_updateErrorText_names (n e : String) (l : List AssetRef) :
    (l.map (updateErrorText n e)).map AssetRef.name = l.map AssetRef.name := by
  rw [List.map_map]
  exact List.map_congr_left fun r _ => updateErrorText_name n e r

theorem map_updateErrorText_of_not_mem (n e : String) (l : List AssetRef)
    (h : ∀ r ∈ l, r.name ≠ n) : l.map (updateErrorText n e) = l := by
  induction l with
  | nil => rfl
  | cons a l ih =>
    have ha : a.name ≠ n := h a (List.mem_cons_self a l)
    simp only [List.map_cons, updateErrorText, if_neg ha,
      ih fun r hr => h r (List.mem_cons_of_mem a hr)]

theorem updateErrorText_idem (n e : String) (r : AssetRef) :
    updateErrorText n e (updateErrorText n e r) = updateErrorText n e r := by
  unfold updateErrorText
  by_cases h : r.name = n <;> simp [h]

theorem map_updateErrorText_idem (n e : String) (l : List AssetRef) :
    (l.map (updateErrorText n e)).map (updateErrorText n e) =
      l.map (updateErrorText n e) := by
  rw [List.map_map]
  exact List.map_congr_left fun r _ => updateErrorText_idem n e r

theorem containsName_iff (s : InvalidAssetManager) (n : String) :
    s.containsName n = true ↔ n ∈ s.assets.map AssetRef.name := by
  simp only [InvalidAssetManager.containsName, List.any_eq_true,
    decide_eq_true_eq, List.mem_map]

theorem filter_name_eq_nil (n e : String) (l : List AssetRef)
    (h : ∀ r ∈ l, r.name ≠ n) :
    (l.map (updateErrorText n e)).filter (fun r => r.name = n) = [] := by
  induction l with
  | nil => rfl
  | cons a l ih =>
    have ha : a.name ≠ n := h a (List.mem_cons_self a l)
    simp only [List.map_cons, List.filter_cons, updateErrorText, if_neg ha,
      decide_eq_true_eq]
    exact ih fun r hr => h r (List.mem_cons_of_mem a hr)

theorem filter_name_map_updateErrorText (n e : String) (l : List AssetRef)
    (hnodup : (l.map AssetRef.name).Nodup)
    (hmem : n ∈ l.map AssetRef.name) :
    (l.map (updateErrorText n e)).filter (fun r => r.name = n) = [⟨n, e⟩] := by
  induction l with
  | nil => simp at hmem
  | cons a l ih =>
    simp only [List.map_cons, List.nodup_cons] at hnodup
    obtain ⟨hanotin, hnodupl⟩ := hnodup
    by_cases ha : a.name = n
    · have hlnone : ∀ r ∈ l, r.name ≠ n := by
        intro r hr hrn
        exact hanotin (by rw [ha, ← hrn]; exact List.mem_map_of_mem AssetRef.name hr)
      simp only [List.map_cons, List.filter_cons, updateErrorText, if_pos ha,
        decide_eq_true_eq]
      rw [filter_name_eq_nil n e l hlnone, ha]
    · have hmeml : n ∈ l.map AssetRef.name := by
        rcases List.mem_cons.mp hmem with h | h
        · exact absurd h.symm ha
        · exact h
      simp only [List.map_cons, List.filter_cons, updateErrorText, if_neg ha,
        decide_eq_true_eq]
      exact ih hnodupl hmeml

theorem markInvalid_active (s : InvalidAssetManager) (n e : String) :
    (s.MarkInvalid n e).active = s.active := by
  unfold InvalidAssetManager.MarkInvalid
  by_cases h : s.active <;> simp [h]

theorem markValid_active (s : InvalidAssetManager) (n : String) :
    (s.MarkValid n).active = s.active := by
  unfold InvalidAssetManager.MarkValid
  by_cases h : s.active
  · by_cases hc : s.containsName n <;> simp [h, hc]
  · simp [h]

theorem markInvalid_names_nodup (s : InvalidAssetManager) (n e : String)
    (h : (s.assets.map AssetRef.name).Nodup) :
    ((s.MarkInvalid n e).assets.map AssetRef.name).Nodup := by
  unfold InvalidAssetManager.MarkInvalid
  by_cases hact : s.active = true
  · rw [if_pos hact]
    dsimp only
    by_cases hc : s.containsName n = true
    · rw [if_pos hc, map_updateErrorText_names]
      exact h
    · have hnot : n ∉ s.assets.map AssetRef.name := by
        intro hmem
        exact hc ((containsName_iff s n).mpr hmem)
      rw [if_neg hc, List.map_append]
      refine List.Nodup.append h (List.nodup_singleton n) ?_
      intro a ha hb
      rw [List.map_cons, List.map_nil, List.mem_singleton] at hb
      subst hb
      exact hnot ha
  · rw [if_neg hact]
    exact h

theorem markValid_names_nodup (s : InvalidAssetManager) (n : String)
    (h : (s.assets.map AssetRef.name).Nodup) :
    ((s.MarkValid n).assets.map AssetRef.name).Nodup := by
  unfold InvalidAssetManager.MarkValid
  by_cases hact : s.active = true
  · rw [if_pos hact]
    by_cases hc : s.containsName n = true
    · rw [if_pos hc]
      dsimp only
      exact List.Nodup.sublist ((List.filter_sublist s.assets).map AssetRef.name) h
    · rw [if_neg hc]
      exact h
  · rw [if_neg hact]
    exact h

theorem applyCall_names_nodup (s : InvalidAssetManager) (c : IAMCall)
    (h : (s.assets.map AssetRef.name).Nodup) :
    ((s.applyCall c).assets.map AssetRef.name).Nodup := by
  cases c with
  | markInvalid n e => exact markInvalid_names_nodup s n e h
  | markValid n => exact markValid_names_nodup s n h

theorem run_names_nodup (calls : List IAMCall) (s : InvalidAssetManager)
    (h : (s.assets.map AssetRef.name).Nodup) :
    ((s.run calls).assets.map AssetRef.name).Nodup := by
  induction calls generalizing s with
  | nil => exact h
  | cons c calls ih =>
    exact ih (s.applyCall c) (applyCall_names_nodup s c h)

theorem applyCall_inactive (s : InvalidAssetManager) (c : IAMCall)
    (h : s.active = false) : s.applyCall c = s := by
  cases c with
  | markInvalid n e =>
    simp [InvalidAssetManager.applyCall, InvalidAssetManager.MarkInvalid, h]
  | markValid n =>
    simp [InvalidAssetManager.applyCall, InvalidAssetManager.MarkValid, h]

theorem run_inactive (calls : List IAMCall) (s : InvalidAssetManager)
    (h : s.active = false) : s.run calls = s := by
  induction calls generalizing s with
  | nil => rfl
  | cons c calls ih =>
    show (s.applyCall c).run calls = s
    rw [applyCall_inactive s c h]
    exact ih s h

/-! ## Lemmas about the marker state machine -/

theorem markerStep_terminal (s : AssetState) (h : s.isTerminal = true)
    (e : MarkerEvent) (he : e ≠ MarkerEvent.externalInvalidate) :
    markerStep s e = s := by
  cases e with
  | complete outcome =>
    have hnp : ¬s = AssetState.pending := by
      cases s <;> simp_all [AssetState.isTerminal]
    simp [markerStep, hnp]
  | externalInvalidate => exact absurd rfl he

theorem markerRun_terminal (evs : List MarkerEvent) (s : AssetState)
    (h : s.isTerminal = true) (hno : MarkerEvent.externalInvalidate ∉ evs) :
    markerRun s evs = s := by
  induction evs with
  | nil => rfl
  | cons e evs ih =>
    simp only [List.mem_cons, not_or] at hno
    show markerRun (markerStep s e) evs = s
    rw [markerStep_terminal s h e fun hee => hno.1 hee.symm]
    exact ih hno.2

/-! ## Claim theorems -/

/-- C7: for every sequence of `MarkInvalid` and `MarkValid` calls on an
Invalid Asset Registry, the snapshot returned by `GetAssets()` never
contains two records with the same name — name uniqueness is an invariant
preserved by every operation. -/
theorem invalidAssetManager_names_unique (b : Bool) (calls : List IAMCall) :
    (((InvalidAssetManager.init b).run calls).GetAssets.map AssetRef.name).Nodup :=
  run_names_nodup calls (InvalidAssetManager.init b) List.nodup_nil

/-- C8: for an `InvalidAssetManager` constructed inactive, every sequence
of `MarkInvalid` and `MarkValid` calls is a no-op: `GetAssets()` always
returns the empty sequence and `HasInvalidAssets()` always returns
false. -/
theorem inactive_registry_all_noop (calls : List IAMCall) :
    ((InvalidAssetManager.init false).run calls).GetAssets = [] ∧
    ((InvalidAssetManager.init false).run calls).HasInvalidAssets = false := by
  rw [run_inactive calls (InvalidAssetManager.init false) rfl]
  exact ⟨rfl, rfl⟩

/-- C9: `ShaderService::GetInstance()` requires that `SetInstance` was
previously called with a non-null pointer: under that precondition it
returns exactly the installed instance and its assertion cannot fire;
calling `GetInstance()` before any `SetInstance` (when `s_instance` still
holds its zero-initialized null value) fails the assertion rather than
returning. -/
theorem getInstance_requires_setInstance (svc : ShaderService)
    (p : Option ShaderService) (hp : p = some svc) :
    ShaderService.GetInstance (ShaderService.SetInstance p) = Except.ok svc ∧
    ShaderService.GetInstance ShaderService.initialInstance =
      Except.error AssertionFailure.assertFailed := by
  subst hp
  exact ⟨rfl, rfl⟩

/-- Witness for C9 at a concretely installed instance. -/
theorem getInstance_requires_setInstance_witness :
    ShaderService.GetInstance (ShaderService.SetInstance (some ⟨[]⟩)) =
      Except.ok (⟨[]⟩ : ShaderService) ∧
    ShaderService.GetInstance ShaderService.initialInstance =
      Except.error AssertionFailure.assertFailed :=
  getInstance_requires_setInstance ⟨[]⟩ (some ⟨[]⟩) rfl

/-- C10: `ResId` construction stores each component within the header's
fixed capacities — the filename in at most `MaxPath` characters, the entry
point in at most 64 and the shader model in at most 32, each including the
null terminator — so longer inputs are limited rather than overflowing the
buffers. -/
theorem resId_construct_within_capacities (f e m : List ResChar) :
    (ResId.construct f e m).filename.length + 1 ≤ MaxPath ∧
    (ResId.construct f e m).entryPoint.length + 1 ≤ 64 ∧
    (ResId.construct f e m).shaderModel.length + 1 ≤ 32 := by
  refine ⟨?_, ?_, ?_⟩ <;>
    simp only [ResId.construct, List.length_take, MaxPath] <;> omega

/-- C2: a marker's state only moves forward along
Pending → {Ready, Invalid}: completion sends a Pending marker to a
terminal outcome, and once a terminal state has been observed every later
query returns the same terminal state as long as no explicit external
invalidation occurs — a terminal marker never reverts to Pending on its
own. -/
theorem marker_terminal_state_persists (s : AssetState)
    (hterm : s.isTerminal = true) (evs : List MarkerEvent)
    (hno : MarkerEvent.externalInvalidate ∉ evs) (out : TerminalState) :
    markerRun s evs = s ∧
    markerStep AssetState.pending (MarkerEvent.complete out) = out.toAssetState ∧
    out.toAssetState.isTerminal = true := by
  refine ⟨markerRun_terminal evs s hterm hno, ?_, ?_⟩
  · simp [markerStep]
  · cases out <;> rfl

/-- Witness for C2: a Ready marker stays Ready across later completions
when no external invalidation occurs. -/
theorem marker_terminal_state_persists_witness :
    markerRun AssetState.ready
        [MarkerEvent.complete TerminalState.invalid,
         MarkerEvent.complete TerminalState.ready] = AssetState.ready ∧
    markerStep AssetState.pending (MarkerEvent.complete TerminalState.invalid) =
      TerminalState.invalid.toAssetState ∧
    TerminalState.invalid.toAssetState.isTerminal = true :=
  marker_terminal_state_persists AssetState.ready (by decide)
    [MarkerEvent.complete TerminalState.invalid,
     MarkerEvent.complete TerminalState.ready] (by decide)
    TerminalState.invalid

/-- C1: while a `CompiledShaderByteCode` handle's compile is still
Pending, the strict accessor `GetByteCode()` signals the contract-violation
error `PendingAsset` — distinct from the data error `InvalidAsset` — and
it is the only accessor that raises: the polling family (`TryGetByteCode`,
`GetAssetState`, `StallWhilePending`) never raises for any handle state,
reporting the state as a return code instead. -/
theorem getByteCode_pending_raises_polling_never (h : CompiledShaderByteCode)
    (hp : h.currentState = AssetState.pending) (h2 : CompiledShaderByteCode) :
    h.GetByteCode = Except.error AccessError.pendingAsset ∧
    AccessError.pendingAsset ≠ AccessError.invalidAsset ∧
    (∃ r, h2.TryGetByteCode = Except.ok r) ∧
    (∃ st, h2.GetAssetState = Except.ok st) ∧
    (∃ q, h2.StallWhilePending = Except.ok q) := by
  refine ⟨?_, by decide, ?_, ⟨h2.currentState, rfl⟩, ⟨_, rfl⟩⟩
  · unfold CompiledShaderByteCode.GetByteCode
    rw [hp]
  · cases hcs : h2.currentState with
    | pending =>
      exact ⟨(AssetState.pending, h2),
        by unfold CompiledShaderByteCode.TryGetByteCode; rw [hcs]⟩
    | ready =>
      exact ⟨(AssetState.ready, { h2 with cache := some h2.payload }),
        by unfold CompiledShaderByteCode.TryGetByteCode; rw [hcs]⟩
    | invalid =>
      exact ⟨(AssetState.invalid, h2),
        by unfold CompiledShaderByteCode.TryGetByteCode; rw [hcs]⟩

/-- Witness for C1 at a concrete Pending handle, polling a terminal
handle. -/
theorem getByteCode_pending_raises_polling_never_witness :
    CompiledShaderByteCode.GetByteCode ⟨false, TerminalState.ready, [7], none⟩ =
      Except.error AccessError.pendingAsset ∧
    AccessError.pendingAsset ≠ AccessError.invalidAsset ∧
    (∃ r, CompiledShaderByteCode.TryGetByteCode ⟨true, TerminalState.invalid, [], none⟩ =
      Except.ok r) ∧
    (∃ st, CompiledShaderByteCode.GetAssetState ⟨true, TerminalState.invalid, [], none⟩ =
      Except.ok st) ∧
    (∃ q, CompiledShaderByteCode.StallWhilePending ⟨true, TerminalState.invalid, [], none⟩ =
      Except.ok q) :=
  getByteCode_pending_raises_polling_never ⟨false, TerminalState.ready, [7], none⟩
    (by decide) ⟨true, TerminalState.invalid, [], none⟩

/-- C5: the parser splits an initializer into
(path, entryPoint, shaderModel) at the last two colon characters, so any
earlier colons (e.g. a drive letter) remain part of the path; when the
trailing entry-point and/or model fields are absent, the documented
defaults are used. -/
theorem parseInitializer_splits_at_last_two_colons
    (p e m : List ResChar) (he : ':' ∉ e) (hm : ':' ∉ m)
    (p2 e2 : List ResChar) (hp2 : ':' ∉ p2) (he2 : ':' ∉ e2)
    (p3 : List ResChar) (hp3 : ':' ∉ p3) :
    parseInitializer (p ++ ':' :: e ++ ':' :: m) = ⟨p, e, m⟩ ∧
    parseInitializer (p2 ++ ':' :: e2) = ⟨p2, e2, defaultShaderModel⟩ ∧
    parseInitializer p3 = ⟨p3, defaultEntryPoint, defaultShaderModel⟩ := by
  refine ⟨?_, ?_, ?_⟩
  · have hass : p ++ ':' :: e ++ ':' :: m = (p ++ ':' :: e) ++ ':' :: m := by
      simp
    rw [hass]
    simp only [parseInitializer, splitLast_append ':' _ m hm,
      splitLast_append ':' p e he]
  · simp only [parseInitializer, splitLast_append ':' p2 e2 he2,
      splitLast_eq_none ':' p2 hp2]
  · simp only [parseInitializer, splitLast_eq_none ':' p3 hp3]

/-- Witness for C5: a drive-letter path with both trailing fields, a
two-field initializer, and a bare path. -/
theorem parseInitializer_splits_at_last_two_colons_witness :
    parseInitializer ("C:/x".data ++ ':' :: "main".data ++ ':' :: "ps_5_0".data) =
      ⟨"C:/x".data, "main".data, "ps_5_0".data⟩ ∧
    parseInitializer ("f.psh".data ++ ':' :: "entry".data) =
      ⟨"f.psh".data, "entry".data, defaultShaderModel⟩ ∧
    parseInitializer "file.psh".data =
      ⟨"file.psh".data, defaultEntryPoint, defaultShaderModel⟩ :=
  parseInitializer_splits_at_last_two_colons
    "C:/x".data "main".data "ps_5_0".data (by decide) (by decide)
    "f.psh".data "entry".data (by decide) (by decide)
    "file.psh".data (by decide)

/-- The `let`-free form of `MakeResId`. -/
theorem makeResId_eq (s : List ResChar) :
    MakeResId s = ⟨(parseInitializer s).filename, (parseInitializer s).entryPoint,
      adaptShaderModel (parseInitializer s).shaderModel⟩ :=
  rfl

/-- C6: for every initializer, parsing with `MakeResId` (parse plus model
adaptation, a pure function), serializing the normalized result back to an
initializer and reparsing yields an equivalent request identity — in fact
the very same `ResId`, hence the same shader stage and the same normalized
model. -/
theorem makeResId_normalize_roundtrip (init : List ResChar) :
    MakeResId (serializeResId (MakeResId init)) = MakeResId init ∧
    (MakeResId (serializeResId (MakeResId init))).AsShaderStage =
      (MakeResId init).AsShaderStage ∧
    (MakeResId (serializeResId (MakeResId init))).shaderModel =
      (MakeResId init).shaderModel := by
  have h1 : parseInitializer (serializeResId (MakeResId init)) = MakeResId init := by
    apply parseInitializer_serializeResId
    · rw [makeResId_eq]
      exact (parseInitializer_fields_colon_free init).1
    · rw [makeResId_eq]
      exact adaptShaderModel_colon_free _ (parseInitializer_fields_colon_free init).2
  have h2 : MakeResId (serializeResId (MakeResId init)) = MakeResId init := by
    rw [makeResId_eq (serializeResId (MakeResId init)), h1, makeResId_eq init]
    simp [adaptShaderModel_idem]
  exact ⟨h2, by rw [h2], by rw [h2]⟩

/-- C4: a malformed initializer or an initializer whose model no
registered compiler accepts makes `CompileFromFile` return a marker that
is already Invalid and carries descriptive (non-empty) error text rather
than raising an unrecoverable fault; but an unknown model token remaining
after model adaptation is a hard error. -/
theorem compileFromFile_failure_modes
    (svc1 : ShaderService) (init1 : List ResChar)
    (h1 : malformedInitializer init1 = true ∨
      svc1.shaderSources.find?
        (fun src => src.accepts (parseInitializer init1).shaderModel) = none)
    (svc2 : ShaderService) (init2 : List ResChar) (src2 : ShaderSource)
    (h2 : malformedInitializer init2 = false)
    (h3 : svc2.shaderSources.find?
      (fun src => src.accepts (parseInitializer init2).shaderModel) = some src2)
    (h4 : src2.knows (adaptShaderModel (parseInitializer init2).shaderModel) = false) :
    (∃ txt, svc1.CompileFromFile init1 =
        Except.ok (CompileMarker.invalidMarker txt) ∧ txt ≠ []) ∧
    svc2.CompileFromFile init2 =
      Except.error (HardError.unknownModelToken
        (adaptShaderModel (parseInitializer init2).shaderModel)) := by
  constructor
  · by_cases hml : malformedInitializer init1 = true
    · refine ⟨"malformed shader initializer: ".data ++ init1, ?_, by simp⟩
      simp only [ShaderService.CompileFromFile, hml, if_true]
    · rcases h1 with h1 | h1
      · exact absurd h1 hml
      · refine ⟨"no shader compiler accepts model: ".data ++
          (parseInitializer init1).shaderModel, ?_, by simp⟩
        simp only [ShaderService.CompileFromFile, hml, h1, Bool.false_eq_true,
          if_false]
  · simp only [ShaderService.CompileFromFile, h2, h3, h4, Bool.false_eq_true,
      if_false]

/-- Witness for C4: an empty registry yields an Invalid marker; a
registry whose only back-end accepts `ps_*` but does not know the adapted
token yields the hard error. -/
theorem compileFromFile_failure_modes_witness :
    (∃ txt, ShaderService.CompileFromFile ⟨[]⟩ "f.psh:main:ps_5_0".data =
        Except.ok (CompileMarker.invalidMarker txt) ∧ txt ≠ []) ∧
    ShaderService.CompileFromFile ⟨[⟨["ps_*".data], []⟩]⟩ "f.psh:main:ps_*".data =
      Except.error (HardError.unknownModelToken
        (adaptShaderModel (parseInitializer "f.psh:main:ps_*".data).shaderModel)) :=
  compileFromFile_failure_modes ⟨[]⟩ "f.psh:main:ps_5_0".data (Or.inr (by decide))
    ⟨[⟨["ps_*".data], []⟩]⟩ "f.psh:main:ps_*".data ⟨["ps_*".data], []⟩
    (by decide) (by decide) (by decide)

theorem markInvalid_assets_of_contains (s : InvalidAssetManager) (n e : String)
    (hact : s.active = true) (hc : s.containsName n = true) :
    (s.MarkInvalid n e).assets = s.assets.map (updateErrorText n e) := by
  unfold InvalidAssetManager.MarkInvalid
  rw [if_pos hact]
  dsimp only
  rw [if_pos hc]

theorem markInvalid_assets_of_not_contains (s : InvalidAssetManager) (n e : String)
    (hact : s.active = true) (hc : ¬s.containsName n = true) :
    (s.MarkInvalid n e).assets = s.assets ++ [⟨n, e⟩] := by
  unfold InvalidAssetManager.MarkInvalid
  rw [if_pos hact]
  dsimp only
  rw [if_neg hc]

theorem markInvalid_eventCount (s : InvalidAssetManager) (n e : String)
    (hact : s.active = true) :
    (s.MarkInvalid n e).eventCount = s.eventCount + 1 := by
  unfold InvalidAssetManager.MarkInvalid
  rw [if_pos hact]

theorem markInvalid_contains_self (s : InvalidAssetManager) (n e : String)
    (hact : s.active = true) :
    (s.MarkInvalid n e).containsName n = true := by
  rw [containsName_iff]
  by_cases hc : s.containsName n = true
  · rw [markInvalid_assets_of_contains s n e hact hc, map_updateErrorText_names]
    exact (containsName_iff s n).mp hc
  · rw [markInvalid_assets_of_not_contains s n e hact hc]
    simp

theorem not_contains_name_forall (s : InvalidAssetManager) (n : String)
    (hc : ¬s.containsName n = true) : ∀ r ∈ s.assets, r.name ≠ n := by
  intro r hr hrn
  exact hc ((containsName_iff s n).mpr (by
    rw [← hrn]
    exact List.mem_map_of_mem AssetRef.name hr))

/-- C3 counterexample: on a registry constructed inactive — a reachable
registry state — two identical `MarkInvalid` calls leave no entry at all
and fire no notification, so the claim's "for every registry state" form
fails. -/
theorem markInvalid_twice_inactive_cex :
    ¬(((((InvalidAssetManager.init false).MarkInvalid "a" "e").MarkInvalid
          "a" "e").GetAssets.filter (fun r => r.name = "a") =
        [⟨"a", "e"⟩]) ∧
      ((((InvalidAssetManager.init false).MarkInvalid "a" "e").MarkInvalid
          "a" "e").eventCount =
        (InvalidAssetManager.init false).eventCount + 2)) := by
  decide

/-- C3 (amended): for every ACTIVE registry state satisfying the
registry's name-uniqueness invariant, calling `MarkInvalid(name, err)`
twice with identical arguments leaves exactly one entry for `name`, whose
error text is `err` — the second call leaves the records unchanged
(idempotent upsert) — and fires the change notification exactly twice, one
per call, even though the text is unchanged by the second call. -/
theorem markInvalid_twice_upsert_two_notifications (s : InvalidAssetManager)
    (n e : String) (hact : s.active = true)
    (hnodup : (s.assets.map AssetRef.name).Nodup) :
    ((s.MarkInvalid n e).MarkInvalid n e).GetAssets.filter
        (fun r => r.name = n) = [⟨n, e⟩] ∧
    ((s.MarkInvalid n e).MarkInvalid n e).GetAssets =
      (s.MarkInvalid n e).GetAssets ∧
    ((s.MarkInvalid n e).MarkInvalid n e).eventCount = s.eventCount + 2 := by
  simp only [InvalidAssetManager.GetAssets]
  have hact1 : (s.MarkInvalid n e).active = true := by
    rw [markInvalid_active]
    exact hact
  have hc1 : (s.MarkInvalid n e).containsName n = true :=
    markInvalid_contains_self s n e hact
  have hassets2 : ((s.MarkInvalid n e).MarkInvalid n e).assets =
      (s.MarkInvalid n e).assets.map (updateErrorText n e) :=
    markInvalid_assets_of_contains (s.MarkInvalid n e) n e hact1 hc1
  have hev : ((s.MarkInvalid n e).MarkInvalid n e).eventCount = s.eventCount + 2 := by
    rw [markInvalid_eventCount (s.MarkInvalid n e) n e hact1,
      markInvalid_eventCount s n e hact]
  by_cases hc : s.containsName n = true
  · have ha1 : (s.MarkInvalid n e).assets = s.assets.map (updateErrorText n e) :=
      markInvalid_assets_of_contains s n e hact hc
    have heq : ((s.MarkInvalid n e).MarkInvalid n e).assets =
        (s.MarkInvalid n e).assets := by
      rw [hassets2, ha1, map_updateErrorText_idem]
    refine ⟨?_, heq, hev⟩
    rw [heq, ha1]
    exact filter_name_map_updateErrorText n e s.assets hnodup
      ((containsName_iff s n).mp hc)
  · have ha1 : (s.MarkInvalid n e).assets = s.assets ++ [⟨n, e⟩] :=
      markInvalid_assets_of_not_contains s n e hact hc
    have hforall := not_contains_name_forall s n hc
    have hmapid : s.assets.map (updateErrorText n e) = s.assets :=
      map_updateErrorText_of_not_mem n e s.assets hforall
    have hupdone : updateErrorText n e ⟨n, e⟩ = ⟨n, e⟩ := by
      simp [updateErrorText]
    have heq : ((s.MarkInvalid n e).MarkInvalid n e).assets =
        (s.MarkInvalid n e).assets := by
      rw [hassets2, ha1, List.map_append, hmapid, List.map_cons, List.map_nil,
        hupdone]
    refine ⟨?_, heq, hev⟩
    have hnodup2 : ((s.assets ++ [(⟨n, e⟩ : AssetRef)]).map AssetRef.name).Nodup := by
      rw [List.map_append]
      refine List.Nodup.append hnodup (by simp) ?_
      intro a ha hb
      rw [List.map_cons, List.map_nil, List.mem_singleton] at hb
      subst hb
      obtain ⟨r, hr, hrn⟩ := List.mem_map.mp ha
      exact hforall r hr hrn
    have hmem2 : n ∈ (s.assets ++ [(⟨n, e⟩ : AssetRef)]).map AssetRef.name := by
      simp
    rw [hassets2, ha1]
    exact filter_name_map_updateErrorText n e (s.assets ++ [⟨n, e⟩]) hnodup2 hmem2

/-- Witness for the amended C3 at a concrete active registry holding one
unrelated record. -/
theorem markInvalid_twice_upsert_witness :
    ((((InvalidAssetManager.mk true [⟨"b", "x"⟩] 5).MarkInvalid "a" "err").MarkInvalid
        "a" "err").GetAssets.filter (fun r => r.name = "a")) = [⟨"a", "err"⟩] ∧
    (((InvalidAssetManager.mk true [⟨"b", "x"⟩] 5).MarkInvalid "a" "err").MarkInvalid
        "a" "err").GetAssets =
      ((InvalidAssetManager.mk true [⟨"b", "x"⟩] 5).MarkInvalid "a" "err").GetAssets ∧
    (((InvalidAssetManager.mk true [⟨"b", "x"⟩] 5).MarkInvalid "a" "err").MarkInvalid
        "a" "err").eventCount = (InvalidAssetManager.mk true [⟨"b", "x"⟩] 5).eventCount + 2 :=
  markInvalid_twice_upsert_two_notifications
    (InvalidAssetManager.mk true [⟨"b", "x"⟩] 5) "a" "err" rfl (by decide)

end XLE
